import Mathlib

/-!
Shallow embedding of the client-side upload retry state machine and the
related interview-flow handlers of `src/client/App.jsx` in the
web-interview-recorder repository, together with a model of the
server-side job queue described in the specification (whose server code
is not part of the client sources).  All definitions are transcribed
from the source; theorems about the specification's claims follow at the
end of the file.
-/

/-- Constant `MAX_QUESTIONS = 5` (App.jsx line 33). -/
def MAX_QUESTIONS : Nat := 5

/-- Constant `MAX_RETRIES = 3` (App.jsx line 34): maximum number of
automatic upload attempts. -/
def MAX_RETRIES : Nat := 3

/-- Constant `BASE_DELAY_MS = 2000` (App.jsx line 35): initial delay for
exponential backoff, in milliseconds. -/
def BASE_DELAY_MS : Nat := 2000

/-- Per-question upload state held in the `uploadStatus` React state
variable (App.jsx line 244); values observed in the source:
idle, recording, stopped, uploading, retry, failed, success. -/
inductive UploadStatus
  | idle
  | recording
  | stopped
  | uploading
  | retry
  | failed
  | success
  deriving DecidableEq, Repr

/-- Client view held in the `view` React state variable (App.jsx line
143): login, interview, complete, plus the admin views. -/
inductive View
  | login
  | interview
  | complete
  | adminLogin
  | adminDashboard
  | adminReview
  deriving DecidableEq, Repr

/-- Outcome of one `fetch` of the upload endpoint as observed by
`uploadWithRetry`: either the promise resolves with a response carrying
an HTTP status and a parsed error-detail string (empty string models a
missing/falsy `detail` field), or the promise rejects (network error,
handled by the `catch` block). -/
inductive FetchOutcome
  | response (status : Nat) (detail : String)
  | netError
  deriving DecidableEq, Repr

/-- The `response.ok` flag of the Fetch API: true exactly when the HTTP
status is in the range 200..299. -/
def respOk (status : Nat) : Bool := 200 ≤ status && status ≤ 299

/-- Classification of one attempt outcome, read off the branch structure
of `uploadWithRetry` (App.jsx lines 707-741): `ok` for a resolved
response with `response.ok`; `retryable` when the code re-invokes itself
(`response.status >= 500 || response.status === 429`, or the `catch`
block for a rejected fetch); `terminal d` for every other non-ok
response, where `d` is the user-visible detail
(`errorData.detail || HTTP <status>`). -/
inductive AttemptClass
  | ok
  | retryable
  | terminal (detail : String)
  deriving DecidableEq, Repr

/-- Failure classification performed inline in `uploadWithRetry`
(App.jsx lines 714-729 and 737-741). -/
def classifyOutcome : FetchOutcome → AttemptClass
  | .response s d =>
      if respOk s then .ok
      else if 500 ≤ s ∨ s = 429 then .retryable
      else .terminal (if d = "" then "HTTP " ++ toString s else d)
  | .netError => .retryable

/-- Relevant client component state: the React state variables of `App`
that the upload/flow handlers read or write.  `recordedChunks` models
`recordedChunksRef.current` (a chunk is abstracted as a `Nat`);
`analysisOutcome` models the per-question AI-analysis result data
visible to the client (transcript/score/feedback), which the upload and
progression handlers never read. -/
structure AppState where
  view : View
  currentQuestionIndex : Nat
  uploadStatus : UploadStatus
  uploadAttemptCount : Nat
  recordedChunks : List Nat
  message : String
  elapsedTime : Nat
  isRecording : Bool
  hasMediaStream : Bool
  questionsCount : Nat
  analysisOutcome : String
  deriving DecidableEq, Repr

/-- Observable events of one upload run: a timed suspension of `ms`
milliseconds (the `await new Promise(resolve => setTimeout(resolve,
delay))` on App.jsx line 687), or an HTTP upload attempt performed with
the given zero-based counter value and video blob (the `fetch` on line
708). -/
inductive UploadEvent
  | suspend (ms : Nat)
  | attempt (counter : Nat) (blob : List Nat)
  deriving DecidableEq, Repr

/-- Message set by the exhausted-budget branch (App.jsx line 674). -/
def failAfterMaxMsg : String :=
  "Upload Failed after " ++ toString MAX_RETRIES ++
    " attempts. Please try manual retry."

/-- Message set before a backoff suspension (App.jsx line 685). -/
def retryingMsg (questionNumber delay currentAttempt : Nat) : String :=
  "Retrying Q" ++ toString questionNumber ++ " in " ++
    toString (delay / 1000) ++ "s (Attempt " ++
    toString (currentAttempt + 1) ++ "/" ++ toString MAX_RETRIES ++ ")..."

/-- Message set by the first attempt (App.jsx line 704). -/
def uploadingMsg (questionNumber : Nat) : String :=
  "Uploading Q" ++ toString questionNumber ++ "..."

/-- Message set by the non-retryable-error branch (App.jsx line 726),
reporting the server's error detail. -/
def uploadFailedMsg (detail : String) : String :=
  "Upload failed: " ++ detail

/-- Message set by the success branch (App.jsx line 734). -/
def uploadSuccessMsg (questionNumber : Nat) : String :=
  "Upload success for Q" ++ toString questionNumber ++
    ". AI analysis running in background."

/-- State reached by the exhausted-budget branch of `uploadWithRetry`
(App.jsx lines 672-678): status failed, the terminal message, and the
attempt count left at the counter value. -/
def budgetExhausted (st : AppState) (currentAttempt : Nat) : AppState :=
  { st with uploadStatus := .failed, message := failAfterMaxMsg,
            uploadAttemptCount := currentAttempt }

/-- Backoff delay computed on App.jsx line 682:
`BASE_DELAY_MS * Math.pow(2, currentAttempt - 1)` (in Nat arithmetic,
matching the calls made with `currentAttempt >= 1`). -/
def backoffDelay (currentAttempt : Nat) : Nat :=
  BASE_DELAY_MS * 2 ^ (currentAttempt - 1)

/-- State after the retry-notification block (App.jsx lines 680-686):
for `currentAttempt > 0` the status becomes retry with the counter and
the retrying message shown; for the initial attempt nothing happens. -/
def retryStateOf (st : AppState) (currentAttempt : Nat) : AppState :=
  if 0 < currentAttempt then
    { st with uploadStatus := .retry,
              uploadAttemptCount := currentAttempt,
              message := retryingMsg (st.currentQuestionIndex + 1)
                (backoffDelay currentAttempt) currentAttempt }
  else st

/-- State just before the fetch (App.jsx lines 701-705): status
uploading, attempt count `currentAttempt + 1`, and the uploading
message on the first attempt only. -/
def attemptingStateOf (st : AppState) (currentAttempt : Nat) : AppState :=
  { retryStateOf st currentAttempt with
      uploadStatus := .uploading,
      uploadAttemptCount := currentAttempt + 1,
      message :=
        if currentAttempt = 0 then
          uploadingMsg (st.currentQuestionIndex + 1)
        else (retryStateOf st currentAttempt).message }

/-- Suspension events emitted before the fetch: one backoff suspension
for `currentAttempt > 0` (App.jsx line 687), none on the initial
attempt. -/
def preEvents (currentAttempt : Nat) : List UploadEvent :=
  if 0 < currentAttempt then [.suspend (backoffDelay currentAttempt)]
  else []

/-- Recursion core of `uploadWithRetry`, structurally recursive on the
remaining attempt budget `remaining = MAX_RETRIES - currentAttempt`
(kept in sync by the wrapper `uploadWithRetry` below; the lemmas
`uploadWithRetry_exhausted` and `uploadWithRetry_unfold` certify that
the pair computes exactly the source's recursion, whose guard is
`currentAttempt >= MAX_RETRIES`). -/
def uploadRun (env : Nat → FetchOutcome) (videoBlob : List Nat) :
    Nat → AppState → Nat → AppState × List UploadEvent
  | 0, st, currentAttempt => (budgetExhausted st currentAttempt, [])
  | remaining + 1, st, currentAttempt =>
    let st2 := attemptingStateOf st currentAttempt
    let pre := preEvents currentAttempt
    match classifyOutcome (env currentAttempt) with
    | .ok =>
        ({ st2 with uploadStatus := .success, uploadAttemptCount := 0,
                    message := uploadSuccessMsg (st.currentQuestionIndex + 1),
                    recordedChunks := [] },
         pre ++ [.attempt currentAttempt videoBlob])
    | .terminal d =>
        ({ st2 with uploadStatus := .failed, message := uploadFailedMsg d },
         pre ++ [.attempt currentAttempt videoBlob])
    | .retryable =>
        let next := uploadRun env videoBlob remaining st2 (currentAttempt + 1)
        (next.1, pre ++ [.attempt currentAttempt videoBlob] ++ next.2)

/-- Shallow embedding of `uploadWithRetry` (App.jsx lines 668-742).
`env a` is the outcome of the fetch performed while the attempt counter
is `a`; `videoBlob` is the blob argument; `currentAttempt` is the
zero-based counter (0 on the initial call).  Returns the final component
state paired with the trace of suspensions and HTTP attempts, in order:
budget guard first (line 672, no suspension consumed), then for
`currentAttempt > 0` the retry state plus a suspension of
`BASE_DELAY_MS * 2 ^ (currentAttempt - 1)` ms (lines 680-688), then the
attempt itself with the outcome classified as in `classifyOutcome`. -/
def uploadWithRetry (env : Nat → FetchOutcome) (videoBlob : List Nat)
    (st : AppState) (currentAttempt : Nat) : AppState × List UploadEvent :=
  uploadRun env videoBlob (MAX_RETRIES - currentAttempt) st currentAttempt

/-- Shallow embedding of `handleUploadVideo` (App.jsx lines 745-754):
the upload trigger, used both for the first upload and for a manual
retry.  Unless the state is stopped or failed it returns immediately;
otherwise it builds the blob from the buffered recorded chunks and
starts `uploadWithRetry` at attempt counter 0. -/
def handleUploadVideo (env : Nat → FetchOutcome) (st : AppState) :
    AppState × List UploadEvent :=
  if st.uploadStatus ≠ .stopped ∧ st.uploadStatus ≠ .failed then (st, [])
  else uploadWithRetry env st.recordedChunks st 0

/-- Message set when advancing is refused (App.jsx line 759). -/
def nextQuestionErrMsg : String :=
  "Error: Please upload the current question\x27s video first."

/-- Shallow embedding of `handleNextQuestion` (App.jsx lines 757-776):
refuses unless the upload state is success; below the last question it
increments the index and resets the per-question state; at the last
question it switches the view to complete. -/
def handleNextQuestion (st : AppState) : AppState :=
  if st.uploadStatus ≠ .success then
    { st with message := nextQuestionErrMsg }
  else if st.currentQuestionIndex < MAX_QUESTIONS - 1 then
    { st with currentQuestionIndex := st.currentQuestionIndex + 1,
              uploadStatus := .idle,
              uploadAttemptCount := 0,
              message := "Ready for Q" ++
                toString (st.currentQuestionIndex + 2) ++ ".",
              elapsedTime := 0 }
  else
    { st with view := .complete,
              message := "All questions answered! Finalizing session..." }

/-- Counters of the attempt events of a trace, in order. -/
def attemptCounters : List UploadEvent → List Nat
  | [] => []
  | .attempt a _ :: tr => a :: attemptCounters tr
  | .suspend _ :: tr => attemptCounters tr

/-- Suspension durations of a trace, in order (milliseconds). -/
def suspendDurations : List UploadEvent → List Nat
  | [] => []
  | .suspend ms :: tr => ms :: suspendDurations tr
  | .attempt _ _ :: tr => suspendDurations tr

/-- Blobs carried by the attempt events of a trace, in order. -/
def attemptBlobs : List UploadEvent → List (List Nat)
  | [] => []
  | .attempt _ b :: tr => b :: attemptBlobs tr
  | .suspend _ :: tr => attemptBlobs tr

/-- Message set by the guard of `startRecording` (App.jsx line 611). -/
def cannotStartMsg : String := "Error: Cannot start recording."

/-- Shallow embedding of `startRecording` (App.jsx lines 609-653):
guarded on media access, loaded questions and not already recording;
clears the chunk buffer, enters the recording state and resets the
timer. -/
def startRecording (st : AppState) : AppState :=
  if !st.hasMediaStream || st.questionsCount = 0 || st.isRecording then
    { st with message := cannotStartMsg }
  else
    { st with recordedChunks := [],
              isRecording := true,
              uploadStatus := .recording,
              message := "Recording Q" ++
                toString (st.currentQuestionIndex + 1) ++ "...",
              elapsedTime := 0 }

/-- Shallow embedding of the recorder's `ondataavailable` handler
(App.jsx lines 625-629): while recording, a nonempty data chunk is
appended to `recordedChunksRef.current`. -/
def pushChunk (st : AppState) (b : Nat) : AppState :=
  if st.isRecording then
    { st with recordedChunks := st.recordedChunks ++ [b] }
  else st

/-- Shallow embedding of `stopRecording` together with the recorder's
`onstop` handler (App.jsx lines 631-639 and 655-662): if recording,
stop, and the upload state becomes stopped. -/
def stopRecording (st : AppState) : AppState :=
  if st.isRecording then
    { st with isRecording := false,
              uploadStatus := .stopped,
              message := "Recording stopped for Q" ++
                toString (st.currentQuestionIndex + 1) ++
                ". Press \x27Upload\x27 to proceed." }
  else st

/-- Shallow embedding of `handleReturnToLogin` (App.jsx lines 807-837):
resets the UI/session state and returns to the login view. -/
def handleReturnToLogin (st : AppState) : AppState :=
  { st with hasMediaStream := false,
            questionsCount := 0,
            currentQuestionIndex := 0,
            uploadStatus := .idle,
            elapsedTime := 0,
            message := "",
            isRecording := false,
            view := .login }

/-- Shallow embedding of the successful tail of `handleLogin` (App.jsx
lines 897-901): after the session starts and the five questions are
selected, the interview view opens at question index 0 with upload
state idle. -/
def handleLoginSuccess (st : AppState) : AppState :=
  { st with questionsCount := MAX_QUESTIONS,
            view := .interview,
            currentQuestionIndex := 0,
            uploadStatus := .idle }

/-- Shallow embedding of a successful `requestMediaAccess` (camera and
microphone granted), which makes `mediaStream` available. -/
def grantMedia (st : AppState) : AppState :=
  { st with hasMediaStream := true }

/-- Operations of the client that mutate the modelled component state.
`uploadTrigger env` runs `handleUploadVideo` to completion in the
environment `env`. -/
inductive ClientOp
  | opStartRecording
  | opPushChunk (b : Nat)
  | opStopRecording
  | uploadTrigger (env : Nat → FetchOutcome)
  | nextQuestion
  | returnToLogin
  | loginSuccess
  | opGrantMedia

/-- One client step: dispatch of the handlers above. -/
def clientStep (st : AppState) : ClientOp → AppState
  | .opStartRecording => startRecording st
  | .opPushChunk b => pushChunk st b
  | .opStopRecording => stopRecording st
  | .uploadTrigger env => (handleUploadVideo env st).1
  | .nextQuestion => handleNextQuestion st
  | .returnToLogin => handleReturnToLogin st
  | .loginSuccess => handleLoginSuccess st
  | .opGrantMedia => grantMedia st

/-- Initial component state: the `useState` initializers of `App`
(App.jsx lines 143, 164, 244, 246 etc.): login view, question index 0,
upload state idle, attempt count 0, empty chunk buffer. -/
def initState : AppState :=
  { view := .login
    currentQuestionIndex := 0
    uploadStatus := .idle
    uploadAttemptCount := 0
    recordedChunks := []
    message := ""
    elapsedTime := 0
    isRecording := false
    hasMediaStream := false
    questionsCount := 0
    analysisOutcome := "" }

/-- Client states reachable from the initial state by client steps. -/
inductive ClientReachable : AppState → Prop
  | init : ClientReachable initState
  | step (st : AppState) (op : ClientOp) :
      ClientReachable st → ClientReachable (clientStep st op)

/-! Polling loop of the review view (App.jsx lines 1179-1196): while the
displayed transcript text is `Processing...`, an interval of 3000 ms
repeatedly re-runs `fetchTranscriptForQuestion`; the interval is cleared
when the transcript changes. -/

/-- Placeholder text that keeps the polling interval armed (App.jsx
line 1183). -/
def processingText : String := "Processing..."

/-- Interval period of the polling loop in milliseconds (App.jsx line
1189: `3000`). -/
def POLL_INTERVAL_MS : Nat := 3000

/-- Transcript value displayed after `n` polling rounds.  `init` is the
value when the loop is first armed and `fetchSeq k` is the
`transcript_text` that the `k`-th re-fetch of `meta.json` would return
(App.jsx lines 1120-1167).  While the displayed value is
`Processing...` the interval fires and replaces it by the fetched
value; otherwise the interval has been cleared and the value stays. -/
def transcriptAfter (init : String) (fetchSeq : Nat → String) : Nat → String
  | 0 => init
  | n + 1 =>
    if transcriptAfter init fetchSeq n = processingText then fetchSeq (n + 1)
    else transcriptAfter init fetchSeq n

/-- Whether the `n`-th interval callback fires (at time `n *
POLL_INTERVAL_MS` after arming): it does exactly when the transcript
displayed after the previous round still reads `Processing...`. -/
def pollFires (init : String) (fetchSeq : Nat → String) : Nat → Bool
  | 0 => false
  | n + 1 => transcriptAfter init fetchSeq n == processingText

/-! Server-side job queue.  The repository's sources contain only the
client (`src/client/App.jsx`); the FastAPI server that owns the queue is
not under `src/`, so the queue is modelled from the specification. -/

/-- Modelled from the spec: the per-Job states of the JobQueue state
machine (spec section 4.3), `QUEUED`, `RUNNING`, `RETRY_SCHEDULED`,
`SUCCEEDED`, `FAILED`.  The server source is not under `src/`. -/
inductive JobState
  | queued
  | running
  | retryScheduled
  | succeeded
  | failed
  deriving DecidableEq, Repr

/-- Modelled from the spec: the classified outcome of one dispatch of
the analysis worker (spec section 4.3): success, a retryable failure
(429/5xx/timeout, scheduling the single automatic retry), or a terminal
failure. -/
inductive DispatchOutcome
  | ok
  | retryLater
  | terminal
  deriving DecidableEq, Repr

/-- Job state that a dispatch outcome sends the running job to. -/
def outcomeState : DispatchOutcome → JobState
  | .ok => .succeeded
  | .retryLater => .retryScheduled
  | .terminal => .failed

/-- Modelled from the spec: the JobQueue scheduler state (spec sections
4.3 and 5).  `jobs` maps a job id to its state (or `none` if no such
job); `driver` is the single global dispatch loop, holding the id of the
job whose external call is in flight, or `none` when idle.  The 15 s
throttle, the 70 s cool-down and the per-job attempt budget are
abstracted away: they delay steps but do not affect which states are
reachable, so they do not bear on mutual exclusion. -/
structure QueueState where
  jobs : Nat → Option JobState
  driver : Option Nat

/-- Pointwise update of the job table. -/
def setJob (f : Nat → Option JobState) (id : Nat) (s : JobState) :
    Nat → Option JobState :=
  fun j => if j = id then some s else f j

/-- Modelled from the spec: the transitions of the JobQueue (spec
sections 4.2, 4.3 and 5; server source not under `src/`).  Ingest
enqueues a fresh job; the single driver dispatches an eligible job
(`QUEUED`, or `RETRY_SCHEDULED` whose wake time has elapsed) only while
no dispatch is in progress (`driver = none`, the sequential dispatch
loop); the in-flight dispatch finishes by moving the running job to the
state its outcome dictates and freeing the driver; a manual retry
re-enqueues a `FAILED` job.  Ingest requests may interleave arbitrarily
with all of this. -/
inductive QStep : QueueState → QueueState → Prop
  | enqueue (q : QueueState) (id : Nat) :
      q.jobs id = none →
      QStep q { q with jobs := setJob q.jobs id .queued }
  | dispatch (q : QueueState) (id : Nat) :
      q.driver = none →
      (q.jobs id = some .queued ∨ q.jobs id = some .retryScheduled) →
      QStep q { jobs := setJob q.jobs id .running, driver := some id }
  | finish (q : QueueState) (id : Nat) (out : DispatchOutcome) :
      q.driver = some id →
      q.jobs id = some .running →
      QStep q { jobs := setJob q.jobs id (outcomeState out), driver := none }
  | manualRetry (q : QueueState) (id : Nat) :
      q.jobs id = some .failed →
      QStep q { q with jobs := setJob q.jobs id .queued }

/-- Queue state before any request: no jobs, driver idle. -/
def initQueue : QueueState :=
  { jobs := fun _ => none, driver := none }

/-- Queue states reachable from the initial state. -/
inductive QReachable : QueueState → Prop
  | init : QReachable initQueue
  | step (q q' : QueueState) : QReachable q → QStep q q' → QReachable q'

/-- Consistency of the job table with the driver: every RUNNING job is
the one the driver is currently dispatching. -/
def runningConsistent (q : QueueState) : Prop :=
  ∀ id, q.jobs id = some .running → q.driver = some id

/-- A convenient concrete starting state for evaluating the model on
concrete runs. -/
def sampleState : AppState :=
  { view := .interview
    currentQuestionIndex := 0
    uploadStatus := .stopped
    uploadAttemptCount := 0
    recordedChunks := [1, 2, 3]
    message := ""
    elapsedTime := 0
    isRecording := false
    hasMediaStream := true
    questionsCount := MAX_QUESTIONS
    analysisOutcome := "" }

/-- Environment in which every fetch rejects with a network error. -/
def envAllNet : Nat → FetchOutcome := fun _ => .netError

/-- Environment in which every fetch resolves with a 404 client error
carrying a detail message. -/
def env404 : Nat → FetchOutcome :=
  fun _ => .response 404 "Invalid question index"

/-- Environment in which every fetch resolves with HTTP 200. -/
def envOk : Nat → FetchOutcome := fun _ => .response 200 ""

/-- Environment in which every fetch resolves with HTTP 429. -/
def env429 : Nat → FetchOutcome :=
  fun _ => .response 429 "Too Many Requests"

/-- Concrete state whose upload already succeeded. -/
def succState : AppState := { sampleState with uploadStatus := .success }

/-- Concrete state whose upload has failed. -/
def failedState : AppState := { sampleState with uploadStatus := .failed }

/-- Concrete queue state with job 7 enqueued. -/
def qQueued : QueueState :=
  { initQueue with jobs := setJob initQueue.jobs 7 .queued }

/-- Concrete queue state with job 7 dispatched and running. -/
def qRunning : QueueState :=
  { jobs := setJob qQueued.jobs 7 .running, driver := some 7 }

/-- Fetch sequence whose every poll returns the processing
placeholder. -/
def constProcessing : Nat → String := fun _ => processingText

/-! Helper lemmas about traces and the upload recursion. -/

theorem attemptCounters_append (t1 t2 : List UploadEvent) :
    attemptCounters (t1 ++ t2) = attemptCounters t1 ++ attemptCounters t2 := by
  induction t1 with
  | nil => rfl
  | cons e t ih => cases e <;> simp [attemptCounters, ih]

theorem suspendDurations_append (t1 t2 : List UploadEvent) :
    suspendDurations (t1 ++ t2) =
      suspendDurations t1 ++ suspendDurations t2 := by
  induction t1 with
  | nil => rfl
  | cons e t ih => cases e <;> simp [suspendDurations, ih]

theorem attemptBlobs_append (t1 t2 : List UploadEvent) :
    attemptBlobs (t1 ++ t2) = attemptBlobs t1 ++ attemptBlobs t2 := by
  induction t1 with
  | nil => rfl
  | cons e t ih => cases e <;> simp [attemptBlobs, ih]

theorem attemptCounters_suspendIf {p : Prop} [Decidable p] (d : Nat) :
    attemptCounters (if p then [UploadEvent.suspend d] else []) = [] := by
  split <;> rfl

theorem suspendDurations_suspendIf {p : Prop} [Decidable p] (d : Nat) :
    suspendDurations (if p then [UploadEvent.suspend d] else []) =
      if p then [d] else [] := by
  split <;> rfl

theorem attemptBlobs_suspendIf {p : Prop} [Decidable p] (d : Nat) :
    attemptBlobs (if p then [UploadEvent.suspend d] else []) = [] := by
  split <;> rfl

theorem attempt_not_mem_suspendIf {p : Prop} [Decidable p] (d : Nat)
    (a' : Nat) (b' : List Nat) :
    UploadEvent.attempt a' b' ∉
      (if p then [UploadEvent.suspend d] else ([] : List UploadEvent)) := by
  split <;> simp

theorem uploadWithRetry_exhausted (env : Nat → FetchOutcome)
    (blob : List Nat) (st : AppState) (a : Nat) (h : MAX_RETRIES ≤ a) :
    uploadWithRetry env blob st a = (budgetExhausted st a, []) := by
  unfold uploadWithRetry
  rw [Nat.sub_eq_zero_of_le h]
  rfl

theorem uploadWithRetry_unfold (env : Nat → FetchOutcome) (blob : List Nat)
    (st : AppState) (a : Nat) (h : a < MAX_RETRIES) :
    uploadWithRetry env blob st a =
      (match classifyOutcome (env a) with
       | .ok =>
           ({ attemptingStateOf st a with
                uploadStatus := .success, uploadAttemptCount := 0,
                message := uploadSuccessMsg (st.currentQuestionIndex + 1),
                recordedChunks := [] },
            preEvents a ++ [.attempt a blob])
       | .terminal d =>
           ({ attemptingStateOf st a with
                uploadStatus := .failed, message := uploadFailedMsg d },
            preEvents a ++ [.attempt a blob])
       | .retryable =>
           ((uploadWithRetry env blob (attemptingStateOf st a) (a + 1)).1,
            preEvents a ++ [.attempt a blob] ++
              (uploadWithRetry env blob (attemptingStateOf st a) (a + 1)).2)) := by
  conv_lhs => rw [uploadWithRetry]
  have hr : MAX_RETRIES - a = (MAX_RETRIES - (a + 1)) + 1 := by omega
  rw [hr]
  rfl

theorem attemptingStateOf_index (st : AppState) (a : Nat) :
    (attemptingStateOf st a).currentQuestionIndex =
      st.currentQuestionIndex := by
  rw [attemptingStateOf, retryStateOf]
  split <;> rfl

theorem attemptingStateOf_chunks (st : AppState) (a : Nat) :
    (attemptingStateOf st a).recordedChunks = st.recordedChunks := by
  rw [attemptingStateOf, retryStateOf]
  split <;> rfl

theorem attemptCounters_preEvents (a : Nat) :
    attemptCounters (preEvents a) = [] := by
  rw [preEvents]; split <;> rfl

theorem suspendDurations_preEvents (a : Nat) :
    suspendDurations (preEvents a) =
      if 0 < a then [backoffDelay a] else [] := by
  rw [preEvents]; split <;> simp [suspendDurations]

theorem attemptBlobs_preEvents (a : Nat) :
    attemptBlobs (preEvents a) = [] := by
  rw [preEvents]; split <;> rfl

theorem attempt_not_mem_preEvents (a a' : Nat) (b' : List Nat) :
    UploadEvent.attempt a' b' ∉ preEvents a := by
  rw [preEvents]; split <;> simp

theorem uploadRun_attempt_mem (env : Nat → FetchOutcome) (blob : List Nat) :
    ∀ (r : Nat) (st : AppState) (a a' : Nat) (b' : List Nat),
      UploadEvent.attempt a' b' ∈ (uploadRun env blob r st a).2 →
      a ≤ a' ∧ a' < a + r := by
  intro r
  induction r with
  | zero =>
      intro st a a' b' hmem
      simp [uploadRun] at hmem
  | succ r ih =>
      intro st a a' b' hmem
      rcases hc : classifyOutcome (env a) with _ | _ | d <;>
        rw [uploadRun] at hmem <;>
        simp only [hc, List.mem_append, List.mem_singleton,
          UploadEvent.attempt.injEq] at hmem
      · rcases hmem with h | ⟨h1, h2⟩
        · exact absurd h (attempt_not_mem_preEvents _ _ _)
        · omega
      · rcases hmem with (h | ⟨h1, h2⟩) | h
        · exact absurd h (attempt_not_mem_preEvents _ _ _)
        · omega
        · have := ih _ (a + 1) a' b' h
          omega
      · rcases hmem with h | ⟨h1, h2⟩
        · exact absurd h (attempt_not_mem_preEvents _ _ _)
        · omega

theorem uploadRun_attempt_self (env : Nat → FetchOutcome) (blob : List Nat) :
    ∀ (r : Nat) (st : AppState) (a : Nat), 0 < r →
      UploadEvent.attempt a blob ∈ (uploadRun env blob r st a).2 := by
  intro r st a hr
  match r, hr with
  | r + 1, _ =>
    rcases hc : classifyOutcome (env a) with _ | _ | d <;>
      rw [uploadRun] <;> simp [hc]

theorem uploadRun_index (env : Nat → FetchOutcome) (blob : List Nat) :
    ∀ (r : Nat) (st : AppState) (a : Nat),
      (uploadRun env blob r st a).1.currentQuestionIndex =
        st.currentQuestionIndex := by
  intro r
  induction r with
  | zero => intro st a; simp [uploadRun, budgetExhausted]
  | succ r ih =>
      intro st a
      rcases hc : classifyOutcome (env a) with _ | _ | d <;>
        rw [uploadRun] <;> simp only [hc]
      · exact attemptingStateOf_index st a
      · rw [ih, attemptingStateOf_index]
      · exact attemptingStateOf_index st a

theorem uploadRun_chunks (env : Nat → FetchOutcome) (blob : List Nat) :
    ∀ (r : Nat) (st : AppState) (a : Nat),
      ((uploadRun env blob r st a).1.uploadStatus = .success ∧
          (uploadRun env blob r st a).1.recordedChunks = []) ∨
        ((uploadRun env blob r st a).1.uploadStatus = .failed ∧
          (uploadRun env blob r st a).1.recordedChunks =
            st.recordedChunks) := by
  intro r
  induction r with
  | zero =>
      intro st a
      right
      simp [uploadRun, budgetExhausted]
  | succ r ih =>
      intro st a
      rcases hc : classifyOutcome (env a) with _ | _ | d <;>
        rw [uploadRun] <;> simp only [hc]
      · left; constructor <;> simp
      · rcases ih (attemptingStateOf st a) (a + 1) with ⟨h1, h2⟩ | ⟨h1, h2⟩
        · left
          exact ⟨h1, h2⟩
        · right
          rw [attemptingStateOf_chunks] at h2
          exact ⟨h1, h2⟩
      · right
        constructor <;> simp [attemptingStateOf_chunks]

theorem uploadRun_blobs (env : Nat → FetchOutcome) (blob : List Nat) :
    ∀ (r : Nat) (st : AppState) (a : Nat) (x : List Nat),
      x ∈ attemptBlobs (uploadRun env blob r st a).2 → x = blob := by
  intro r
  induction r with
  | zero =>
      intro st a x hx
      simp [uploadRun, attemptBlobs] at hx
  | succ r ih =>
      intro st a x hx
      rcases hc : classifyOutcome (env a) with _ | _ | d <;>
        rw [uploadRun] at hx <;>
        simp only [hc, attemptBlobs_append, attemptBlobs_preEvents,
          attemptBlobs, List.mem_append, List.mem_singleton,
          List.nil_append, List.not_mem_nil, false_or, or_false,
          List.mem_cons] at hx
      · exact hx
      · rcases hx with hx | hx
        · exact hx
        · exact ih _ (a + 1) x hx
      · exact hx

theorem allRetryable_run (env : Nat → FetchOutcome) (blob : List Nat)
    (st : AppState)
    (h0 : classifyOutcome (env 0) = .retryable)
    (h1 : classifyOutcome (env 1) = .retryable)
    (h2 : classifyOutcome (env 2) = .retryable) :
    attemptCounters (uploadWithRetry env blob st 0).2 = [0, 1, 2] ∧
      suspendDurations (uploadWithRetry env blob st 0).2 =
        [backoffDelay 1, backoffDelay 2] ∧
      (uploadWithRetry env blob st 0).1.uploadStatus = .failed ∧
      (uploadWithRetry env blob st 0).1.uploadAttemptCount = MAX_RETRIES ∧
      (uploadWithRetry env blob st 0).1.recordedChunks = st.recordedChunks ∧
      UploadEvent.suspend (backoffDelay 3) ∉
        (uploadWithRetry env blob st 0).2 := by
  rw [uploadWithRetry_unfold env blob st 0 (by decide)]
  simp only [h0]
  rw [uploadWithRetry_unfold env blob _ 1 (by decide)]
  simp only [h1]
  rw [uploadWithRetry_unfold env blob _ 2 (by decide)]
  simp only [h2]
  rw [uploadWithRetry_exhausted env blob _ 3 (by decide)]
  refine ⟨?_, ?_, ?_, ?_, ?_, ?_⟩ <;>
    simp [attemptCounters_append, suspendDurations_append,
      attemptCounters_preEvents, suspendDurations_preEvents,
      attemptCounters, suspendDurations, budgetExhausted,
      attemptingStateOf_chunks, preEvents, backoffDelay,
      BASE_DELAY_MS, MAX_RETRIES]

theorem transcriptAfter_stable (init : String) (seq : Nat → String)
    (n : Nat) (h : transcriptAfter init seq n ≠ processingText) :
    ∀ k, transcriptAfter init seq (n + k) = transcriptAfter init seq n := by
  intro k
  induction k with
  | zero => rfl
  | succ k ih =>
      have hnk : n + (k + 1) = (n + k) + 1 := rfl
      rw [hnk, transcriptAfter, ih]
      simp [h]

theorem constProcessing_stays (n : Nat) :
    transcriptAfter processingText constProcessing n = processingText := by
  induction n with
  | zero => rfl
  | succ n ih =>
      rw [transcriptAfter, ih]
      simp [constProcessing]

theorem qreachable_runningConsistent (q : QueueState) (hq : QReachable q) :
    runningConsistent q := by
  induction hq with
  | init => intro id h; exact Option.noConfusion h
  | step q q' hr hs ih =>
      cases hs with
      | enqueue id hnone =>
          intro k hk
          simp only [setJob] at hk
          by_cases hkid : k = id
          · rw [if_pos hkid] at hk
            simp at hk
          · rw [if_neg hkid] at hk
            exact ih k hk
      | dispatch id hdrv helig =>
          intro k hk
          simp only [setJob] at hk
          by_cases hkid : k = id
          · subst hkid; rfl
          · rw [if_neg hkid] at hk
            have hdk := ih k hk
            rw [hdrv] at hdk
            exact Option.noConfusion hdk
      | finish id out hdrv hrun =>
          intro k hk
          simp only [setJob] at hk
          by_cases hkid : k = id
          · rw [if_pos hkid] at hk
            cases out <;> simp [outcomeState] at hk
          · rw [if_neg hkid] at hk
            have hdk := ih k hk
            rw [hdrv] at hdk
            exact absurd (Option.some.inj hdk).symm hkid
      | manualRetry id hfail =>
          intro k hk
          simp only [setJob] at hk
          by_cases hkid : k = id
          · rw [if_pos hkid] at hk
            simp at hk
          · rw [if_neg hkid] at hk
            exact ih k hk

theorem handleUploadVideo_index (env : Nat → FetchOutcome) (st : AppState) :
    (handleUploadVideo env st).1.currentQuestionIndex =
      st.currentQuestionIndex := by
  rw [handleUploadVideo]
  split
  · rfl
  · unfold uploadWithRetry
    exact uploadRun_index env st.recordedChunks _ st 0

theorem startRecording_index (st : AppState) :
    (startRecording st).currentQuestionIndex = st.currentQuestionIndex := by
  rw [startRecording]; split <;> rfl

theorem pushChunk_index (st : AppState) (b : Nat) :
    (pushChunk st b).currentQuestionIndex = st.currentQuestionIndex := by
  rw [pushChunk]; split <;> rfl

theorem stopRecording_index (st : AppState) :
    (stopRecording st).currentQuestionIndex = st.currentQuestionIndex := by
  rw [stopRecording]; split <;> rfl

theorem handleNextQuestion_index_le (st : AppState)
    (h : st.currentQuestionIndex ≤ MAX_QUESTIONS - 1) :
    (handleNextQuestion st).currentQuestionIndex ≤ MAX_QUESTIONS - 1 := by
  rw [handleNextQuestion]
  split
  · exact h
  · split
    · next hlt =>
        simp only [MAX_QUESTIONS] at hlt ⊢
        omega
    · exact h

theorem clientStep_index_le (st : AppState) (op : ClientOp)
    (h : st.currentQuestionIndex ≤ MAX_QUESTIONS - 1) :
    (clientStep st op).currentQuestionIndex ≤ MAX_QUESTIONS - 1 := by
  cases op with
  | opStartRecording => rw [clientStep, startRecording_index]; exact h
  | opPushChunk b => rw [clientStep, pushChunk_index]; exact h
  | opStopRecording => rw [clientStep, stopRecording_index]; exact h
  | uploadTrigger env => rw [clientStep, handleUploadVideo_index]; exact h
  | nextQuestion => exact handleNextQuestion_index_le st h
  | returnToLogin => simp [clientStep, handleReturnToLogin, MAX_QUESTIONS]
  | loginSuccess => simp [clientStep, handleLoginSuccess, MAX_QUESTIONS]
  | opGrantMedia => rw [clientStep, grantMedia]; exact h

theorem clientReachable_index_le (st : AppState) (h : ClientReachable st) :
    st.currentQuestionIndex ≤ MAX_QUESTIONS - 1 := by
  induction h with
  | init => decide
  | step st op hr ih => exact clientStep_index_le st op ih

/-- C1 counterexample: in a run in which every attempt fails with a
retryable error, the suspensions that actually elapse are 2000 ms and
4000 ms only; no 8000 ms suspension occurs, and the run ends failed.
This refutes the claim that the retry delays for attempts 1-3 are
2000 ms, 4000 ms and 8000 ms. -/
theorem c1_backoff_counterexample :
    suspendDurations (uploadWithRetry envAllNet [1, 2, 3] sampleState 0).2 =
        [2000, 4000] ∧
      UploadEvent.suspend 8000 ∉
        (uploadWithRetry envAllNet [1, 2, 3] sampleState 0).2 ∧
      (uploadWithRetry envAllNet [1, 2, 3] sampleState 0).1.uploadStatus =
        .failed := by
  decide

/-- C1 (amended): for every upload sequence in which attempts keep
failing with retryable errors, the client suspends before the a-th
automatic retry for `BASE_DELAY_MS * 2 ^ (a - 1)` ms; exactly two such
suspensions elapse (2000 ms before attempt counter 1 and 4000 ms before
attempt counter 2), the 8000 ms suspension for counter 3 never occurs
because the budget guard transitions directly to failed, and the run
performs attempts 0, 1, 2 and ends failed. -/
theorem c1_backoff_amended :
    ∀ (env : Nat → FetchOutcome) (blob : List Nat) (st : AppState),
      (∀ k, classifyOutcome (env k) = .retryable) →
      suspendDurations (uploadWithRetry env blob st 0).2 =
          [BASE_DELAY_MS * 2 ^ 0, BASE_DELAY_MS * 2 ^ 1] ∧
        attemptCounters (uploadWithRetry env blob st 0).2 = [0, 1, 2] ∧
        UploadEvent.suspend (BASE_DELAY_MS * 2 ^ 2) ∉
          (uploadWithRetry env blob st 0).2 ∧
        (uploadWithRetry env blob st 0).1.uploadStatus = .failed := by
  intro env blob st h
  obtain ⟨ha, hs, hst, hcnt, hch, hns⟩ :=
    allRetryable_run env blob st (h 0) (h 1) (h 2)
  refine ⟨?_, ha, ?_, hst⟩
  · rw [hs]
    rfl
  · have hb : BASE_DELAY_MS * 2 ^ 2 = backoffDelay 3 := rfl
    rw [hb]
    exact hns

/-- C1 witness: the amended theorem applied to the all-network-error
environment. -/
theorem c1_backoff_amended_witness :
    suspendDurations (uploadWithRetry envAllNet [1, 2, 3] sampleState 0).2 =
      [BASE_DELAY_MS * 2 ^ 0, BASE_DELAY_MS * 2 ^ 1] :=
  (c1_backoff_amended envAllNet [1, 2, 3] sampleState (fun _ => rfl)).1

/-- C2: starting from one upload trigger at counter 0, at most
`MAX_RETRIES = 3` attempts are performed (every attempt event carries a
counter below 3, so a 4th automatic attempt never occurs for any
sequence of outcomes), and when every attempt fails with a retryable
error the state becomes failed with attempt count 3 after exactly the
attempts 0, 1, 2. -/
theorem c2_attempt_budget :
    ∀ (env : Nat → FetchOutcome) (blob : List Nat) (st : AppState),
      (∀ (a : Nat) (b' : List Nat),
          UploadEvent.attempt a b' ∈ (uploadWithRetry env blob st 0).2 →
          a < MAX_RETRIES) ∧
        ((∀ k, classifyOutcome (env k) = .retryable) →
          (uploadWithRetry env blob st 0).1.uploadStatus = .failed ∧
            (uploadWithRetry env blob st 0).1.uploadAttemptCount =
              MAX_RETRIES ∧
            attemptCounters (uploadWithRetry env blob st 0).2 = [0, 1, 2]) := by
  intro env blob st
  constructor
  · intro a b' hmem
    unfold uploadWithRetry at hmem
    have hb := uploadRun_attempt_mem env blob (MAX_RETRIES - 0) st 0 a b' hmem
    omega
  · intro h
    obtain ⟨ha, hs, hst, hcnt, hch, hns⟩ :=
      allRetryable_run env blob st (h 0) (h 1) (h 2)
    exact ⟨hst, hcnt, ha⟩

/-- C2 witness: the budget theorem applied to the all-network-error
environment and to a concrete attempt event. -/
theorem c2_attempt_budget_witness :
    (uploadWithRetry envAllNet [1, 2, 3] sampleState 0).1.uploadStatus =
        .failed ∧
      (0 : Nat) < MAX_RETRIES :=
  ⟨((c2_attempt_budget envAllNet [1, 2, 3] sampleState).2 (fun _ => rfl)).1,
   (c2_attempt_budget envAllNet [1, 2, 3] sampleState).1 0 [1, 2, 3]
     (by decide)⟩

theorem mem_attemptCounters : ∀ (tr : List UploadEvent) (a' : Nat),
    a' ∈ attemptCounters tr ↔
      ∃ b', UploadEvent.attempt a' b' ∈ tr := by
  intro tr
  induction tr with
  | nil => intro a'; simp [attemptCounters]
  | cons e t ih =>
      intro a'
      cases e with
      | suspend ms => simp [attemptCounters, ih]
      | attempt c bl =>
          simp only [attemptCounters, List.mem_cons, ih,
            UploadEvent.attempt.injEq]
          constructor
          · rintro (rfl | ⟨b', hb⟩)
            · exact ⟨bl, Or.inl ⟨rfl, rfl⟩⟩
            · exact ⟨b', Or.inr hb⟩
          · rintro ⟨b', ⟨h1, h2⟩ | hb⟩
            · exact Or.inl h1
            · exact Or.inr ⟨b', hb⟩

/-- C3: an automatic retry is scheduled iff the attempt budget is not
exhausted and the attempt ended in a network failure or an HTTP status
`>= 500` or `= 429` (first conjunct: the code's retryable
classification is exactly that predicate; second conjunct: attempt
`a + 1` happens iff attempt `a` was classified retryable and
`a + 1 < MAX_RETRIES`); every other non-ok response makes the run end
at that attempt: state failed, the server's detail reported in the
user-visible message, no suspension or further attempt after the
response, and for a first-attempt client error no backoff at all. -/
theorem c3_retry_classification :
    ∀ (env : Nat → FetchOutcome) (blob : List Nat) (st : AppState)
      (a : Nat), a < MAX_RETRIES →
      ((classifyOutcome (env a) = .retryable ↔
          env a = .netError ∨
            ∃ s d, env a = .response s d ∧ (500 ≤ s ∨ s = 429)) ∧
       ((a + 1) ∈ attemptCounters (uploadWithRetry env blob st a).2 ↔
          classifyOutcome (env a) = .retryable ∧ a + 1 < MAX_RETRIES) ∧
       (∀ s d, env a = .response s d → respOk s = false →
          ¬(500 ≤ s ∨ s = 429) →
          (uploadWithRetry env blob st a).1.uploadStatus = .failed ∧
            (uploadWithRetry env blob st a).1.message =
              uploadFailedMsg
                (if d = "" then "HTTP " ++ toString s else d) ∧
            (uploadWithRetry env blob st a).2 =
              preEvents a ++ [.attempt a blob] ∧
            (a = 0 →
              suspendDurations (uploadWithRetry env blob st a).2 = []))) := by
  intro env blob st a h
  refine ⟨?_, ?_, ?_⟩
  · rcases henv : env a with ⟨s, d⟩ | _
    · by_cases hok : respOk s
      · have hs : 200 ≤ s ∧ s ≤ 299 := by
          simpa [respOk] using hok
        simp only [classifyOutcome, hok, if_true]
        constructor
        · intro hcon; exact absurd hcon (by simp)
        · rintro (hcon | ⟨s', d', hsd, hr⟩)
          · exact absurd hcon (by simp)
          · rw [FetchOutcome.response.injEq] at hsd
            omega
      · by_cases hr : 500 ≤ s ∨ s = 429 <;>
          simp [classifyOutcome, hok, hr]
    · simp [classifyOutcome]
  · constructor
    · intro hmem
      rcases hc : classifyOutcome (env a) with _ | _ | d
      · rw [uploadWithRetry_unfold env blob st a h] at hmem
        simp [hc, attemptCounters_append, attemptCounters_preEvents,
          attemptCounters] at hmem
      · refine ⟨rfl, ?_⟩
        rw [uploadWithRetry_unfold env blob st a h] at hmem
        simp only [hc, attemptCounters_append, attemptCounters_preEvents,
          attemptCounters, List.nil_append, List.cons_append,
          List.mem_cons, List.mem_append] at hmem
        rcases hmem with heq | hmem
        · omega
        · rcases (mem_attemptCounters _ _).mp hmem with ⟨b', hb⟩
          unfold uploadWithRetry at hb
          have hbd := uploadRun_attempt_mem env blob _ _ (a + 1) (a + 1)
            b' hb
          omega
      · rw [uploadWithRetry_unfold env blob st a h] at hmem
        simp [hc, attemptCounters_append, attemptCounters_preEvents,
          attemptCounters] at hmem
    · rintro ⟨hc, hlt⟩
      rw [uploadWithRetry_unfold env blob st a h]
      simp only [hc, attemptCounters_append, attemptCounters_preEvents,
        attemptCounters, List.nil_append, List.cons_append,
        List.mem_cons, List.mem_append]
      right
      refine (mem_attemptCounters _ _).mpr ⟨blob, ?_⟩
      unfold uploadWithRetry
      exact uploadRun_attempt_self env blob _ _ (a + 1) (by omega)
  · intro s d henv hok hr
    have hc : classifyOutcome (env a) =
        .terminal (if d = "" then "HTTP " ++ toString s else d) := by
      rw [henv]
      simp [classifyOutcome, hok, hr]
    rw [uploadWithRetry_unfold env blob st a h]
    simp only [hc]
    refine ⟨by trivial, by trivial, by trivial, ?_⟩
    rintro rfl
    simp [suspendDurations_append, suspendDurations_preEvents,
      suspendDurations]

/-- C3 witness: the classification theorem applied at attempt 0 to an
environment answering 404 with a detail message. -/
theorem c3_retry_classification_witness :
    (uploadWithRetry env404 [9] sampleState 0).1.uploadStatus = .failed ∧
      (uploadWithRetry env404 [9] sampleState 0).1.message =
        uploadFailedMsg "Invalid question index" ∧
      suspendDurations (uploadWithRetry env404 [9] sampleState 0).2 = [] := by
  have h := c3_retry_classification env404 [9] sampleState 0 (by decide)
  have h3 := h.2.2 404 "Invalid question index" rfl (by decide) (by decide)
  exact ⟨h3.1, by rw [h3.2.1]; rfl, h3.2.2.2 rfl⟩

/-- C4: in every reachable state of the job-queue model, at most one
job is in the RUNNING state (global mutual exclusion over the external
inference call), no matter how enqueue, dispatch, completion and
manual-retry steps interleave. -/
theorem c4_single_running_job :
    ∀ q, QReachable q → ∀ i j, q.jobs i = some .running →
      q.jobs j = some .running → i = j := by
  intro q hq i j hi hj
  have hc := qreachable_runningConsistent q hq
  have hdi := hc i hi
  have hdj := hc j hj
  rw [hdi] at hdj
  exact Option.some.inj hdj

/-- C4 witness: the mutual-exclusion theorem applied to a concrete
reachable state in which job 7 has been enqueued and dispatched. -/
theorem c4_single_running_job_witness :
    qRunning.jobs 7 = some .running ∧ (7 : Nat) = 7 := by
  have h7 : qRunning.jobs 7 = some .running := by
    simp [qRunning, qQueued, initQueue, setJob]
  have h1 : QReachable qQueued :=
    QReachable.step initQueue qQueued QReachable.init
      (QStep.enqueue initQueue 7 rfl)
  have h2 : QReachable qRunning :=
    QReachable.step qQueued qRunning h1
      (QStep.dispatch qQueued 7 rfl
        (Or.inl (by simp [qQueued, initQueue, setJob])))
  exact ⟨h7, c4_single_running_job qRunning h2 7 7 h7 h7⟩

/-- C5 counterexample: with a status that stays processing, the 13th
and the 50th interval callbacks still fire, so the polling loop has no
overall cap of about 12 polls. -/
theorem c5_polling_counterexample :
    pollFires processingText constProcessing 13 = true ∧
      pollFires processingText constProcessing 50 = true := by
  constructor <;> rfl

/-- C5 (amended): while the displayed transcript reads processing, the
client polls every `POLL_INTERVAL_MS = 3000` ms (the `n`-th callback
fires iff the value after the previous round is still the processing
placeholder); polling stops for good as soon as a non-processing value
is observed; but there is no overall poll cap: with a perpetually
processing status every callback fires, so the loop does not stop
after about 12 polls. -/
theorem c5_polling_amended :
    POLL_INTERVAL_MS = 3000 ∧
      (∀ (init : String) (seq : Nat → String) (n : Nat),
        pollFires init seq (n + 1) = true ↔
          transcriptAfter init seq n = processingText) ∧
      (∀ (init : String) (seq : Nat → String) (n : Nat),
        transcriptAfter init seq n ≠ processingText →
        ∀ m, n ≤ m → pollFires init seq (m + 1) = false) ∧
      (∀ n, pollFires processingText constProcessing (n + 1) = true) := by
  refine ⟨rfl, ?_, ?_, ?_⟩
  · intro init seq n
    simp [pollFires]
  · intro init seq n h m hnm
    have hk : transcriptAfter init seq m = transcriptAfter init seq n := by
      have := transcriptAfter_stable init seq n h (m - n)
      rwa [Nat.add_sub_cancel' hnm] at this
    simp [pollFires, hk, h]
  · intro n
    simp [pollFires, constProcessing_stays]

/-- C5 witness: the amended theorem applied to a fetch sequence that
returns a terminal transcript on the first re-fetch. -/
theorem c5_polling_amended_witness :
    pollFires processingText (fun _ => "done") 2 = false :=
  c5_polling_amended.2.2.1 processingText (fun _ => "done") 1
    (by decide) 1 (Nat.le_refl 1)

/-- C6: from the failed state the manual trigger restarts
`uploadWithRetry` with the attempt counter reset to 0, so the manual
retry gets a fresh budget of `MAX_RETRIES = 3` attempts with the same
backoff schedule (2000 ms then 4000 ms when every attempt keeps
failing retryably). -/
theorem c6_manual_retry_fresh_budget :
    ∀ (env : Nat → FetchOutcome) (st : AppState),
      st.uploadStatus = .failed →
      handleUploadVideo env st =
          uploadWithRetry env st.recordedChunks st 0 ∧
        ((∀ k, classifyOutcome (env k) = .retryable) →
          attemptCounters (handleUploadVideo env st).2 = [0, 1, 2] ∧
            suspendDurations (handleUploadVideo env st).2 =
              [backoffDelay 1, backoffDelay 2]) := by
  intro env st h
  have hg : ¬(st.uploadStatus ≠ .stopped ∧ st.uploadStatus ≠ .failed) :=
    fun hcon => hcon.2 h
  have heq : handleUploadVideo env st =
      uploadWithRetry env st.recordedChunks st 0 := by
    rw [handleUploadVideo, if_neg hg]
  refine ⟨heq, ?_⟩
  intro hall
  obtain ⟨ha, hs, hst, hcnt, hch, hns⟩ :=
    allRetryable_run env st.recordedChunks st (hall 0) (hall 1) (hall 2)
  rw [heq]
  exact ⟨ha, hs⟩

/-- C6 witness: the manual-retry theorem applied to a concrete failed
state in the all-network-error environment. -/
theorem c6_manual_retry_fresh_budget_witness :
    handleUploadVideo envAllNet failedState =
        uploadWithRetry envAllNet failedState.recordedChunks failedState 0 ∧
      attemptCounters (handleUploadVideo envAllNet failedState).2 =
        [0, 1, 2] := by
  have h := c6_manual_retry_fresh_budget envAllNet failedState rfl
  exact ⟨h.1, (h.2 (fun _ => rfl)).1⟩

/-- C7: across one upload run the buffered recorded chunks are cleared
exactly on the success transition (final chunks empty iff the run
succeeded, unchanged otherwise), every attempt of the run re-sends the
same blob, and a manual retry after failure re-sends the recorded
chunks unchanged. -/
theorem c7_chunks_cleared_only_on_success :
    ∀ (env : Nat → FetchOutcome) (blob : List Nat) (st : AppState)
      (a : Nat),
      ((uploadWithRetry env blob st a).1.uploadStatus = .success →
          (uploadWithRetry env blob st a).1.recordedChunks = []) ∧
        ((uploadWithRetry env blob st a).1.uploadStatus ≠ .success →
          (uploadWithRetry env blob st a).1.recordedChunks =
            st.recordedChunks) ∧
        (∀ x ∈ attemptBlobs (uploadWithRetry env blob st a).2, x = blob) ∧
        (st.uploadStatus = .failed →
          ∀ x ∈ attemptBlobs (handleUploadVideo env st).2,
            x = st.recordedChunks) := by
  intro env blob st a
  have hrun := uploadRun_chunks env blob (MAX_RETRIES - a) st a
  refine ⟨?_, ?_, ?_, ?_⟩
  · intro hs
    unfold uploadWithRetry at hs ⊢
    rcases hrun with ⟨h1, h2⟩ | ⟨h1, h2⟩
    · exact h2
    · rw [h1] at hs
      simp at hs
  · intro hns
    unfold uploadWithRetry at hns ⊢
    rcases hrun with ⟨h1, h2⟩ | ⟨h1, h2⟩
    · exact absurd h1 hns
    · exact h2
  · intro x hx
    unfold uploadWithRetry at hx
    exact uploadRun_blobs env blob _ st a x hx
  · intro hf x hx
    have hg : ¬(st.uploadStatus ≠ .stopped ∧ st.uploadStatus ≠ .failed) :=
      fun hcon => hcon.2 hf
    rw [handleUploadVideo, if_neg hg] at hx
    unfold uploadWithRetry at hx
    exact uploadRun_blobs env st.recordedChunks _ st 0 x hx

/-- C7 witness: the frame theorem applied to a failing run (chunks
preserved), to a succeeding run (chunks cleared) and to a manual retry
attempt event. -/
theorem c7_chunks_cleared_only_on_success_witness :
    (uploadWithRetry envAllNet [1, 2, 3] sampleState 0).1.recordedChunks =
        sampleState.recordedChunks ∧
      (uploadWithRetry envOk [1, 2, 3] sampleState 0).1.recordedChunks =
        [] ∧
      ([1, 2, 3] : List Nat) = failedState.recordedChunks := by
  refine ⟨?_, ?_, ?_⟩
  · exact (c7_chunks_cleared_only_on_success envAllNet [1, 2, 3]
      sampleState 0).2.1 (by decide)
  · exact (c7_chunks_cleared_only_on_success envOk [1, 2, 3]
      sampleState 0).1 (by decide)
  · exact (c7_chunks_cleared_only_on_success envAllNet [1, 2, 3]
      failedState 0).2.2.2 rfl [1, 2, 3] (by decide)

/-- C8: advancing to the next question depends only on the upload
state being success: when it is not, only the message changes; the
analysis outcome is never consulted (updating it commutes with the
handler); and advancing below the last question resets the
per-question upload state to idle with attempt count 0. -/
theorem c8_advance_depends_only_on_upload :
    ∀ st : AppState,
      (st.uploadStatus ≠ .success →
          handleNextQuestion st = { st with message := nextQuestionErrMsg }) ∧
        (∀ x, handleNextQuestion { st with analysisOutcome := x } =
            { handleNextQuestion st with analysisOutcome := x }) ∧
        (st.uploadStatus = .success →
          st.currentQuestionIndex < MAX_QUESTIONS - 1 →
          (handleNextQuestion st).currentQuestionIndex =
              st.currentQuestionIndex + 1 ∧
            (handleNextQuestion st).uploadStatus = .idle ∧
            (handleNextQuestion st).uploadAttemptCount = 0) := by
  intro st
  refine ⟨?_, ?_, ?_⟩
  · intro h
    rw [handleNextQuestion, if_pos h]
  · intro x
    cases st with
    | mk v i us uac rc m et ir hms qc ao =>
        simp only [handleNextQuestion]
        split_ifs <;> rfl
  · intro h hlt
    rw [handleNextQuestion, if_neg (fun hc => hc h), if_pos hlt]
    exact ⟨rfl, rfl, rfl⟩

/-- C8 witness: the advance theorem applied to a concrete succeeded
state at question index 0. -/
theorem c8_advance_depends_only_on_upload_witness :
    (handleNextQuestion succState).currentQuestionIndex =
        succState.currentQuestionIndex + 1 ∧
      (handleNextQuestion succState).uploadStatus = .idle ∧
      (handleNextQuestion succState).uploadAttemptCount = 0 :=
  (c8_advance_depends_only_on_upload succState).2.2 rfl (by decide)

/-- C9: the upload trigger is a no-op unless the per-question upload
state is stopped or failed: for every other state (idle, recording,
uploading, retry, success) it returns the state unchanged and performs
no event, so no new upload can start while one is in flight and a
succeeded question cannot be re-uploaded before a reset. -/
theorem c9_upload_trigger_guard :
    ∀ (env : Nat → FetchOutcome) (st : AppState),
      st.uploadStatus ≠ .stopped → st.uploadStatus ≠ .failed →
      handleUploadVideo env st = (st, []) := by
  intro env st h1 h2
  rw [handleUploadVideo, if_pos ⟨h1, h2⟩]

/-- C9 witness: the guard theorem applied to a concrete succeeded
state. -/
theorem c9_upload_trigger_guard_witness :
    handleUploadVideo envAllNet succState = (succState, []) :=
  c9_upload_trigger_guard envAllNet succState (by decide) (by decide)

/-- C10: the question index starts at 0, never exceeds
`MAX_QUESTIONS - 1 = 4` in any reachable client state, is unchanged by
the next-question handler unless the upload state is success,
increments by exactly 1 on success below the last question, and at the
last question a success switches the view to complete without
incrementing the index. -/
theorem c10_question_index_bounds :
    initState.currentQuestionIndex = 0 ∧
      (∀ st, ClientReachable st →
        st.currentQuestionIndex ≤ MAX_QUESTIONS - 1) ∧
      (∀ st, st.uploadStatus ≠ .success →
        (handleNextQuestion st).currentQuestionIndex =
            st.currentQuestionIndex ∧
          (handleNextQuestion st).view = st.view) ∧
      (∀ st, st.uploadStatus = .success →
        st.currentQuestionIndex < MAX_QUESTIONS - 1 →
        (handleNextQuestion st).currentQuestionIndex =
          st.currentQuestionIndex + 1) ∧
      (∀ st, st.uploadStatus = .success →
        MAX_QUESTIONS - 1 ≤ st.currentQuestionIndex →
        (handleNextQuestion st).view = .complete ∧
          (handleNextQuestion st).currentQuestionIndex =
            st.currentQuestionIndex) := by
  refine ⟨rfl, clientReachable_index_le, ?_, ?_, ?_⟩
  · intro st h
    rw [handleNextQuestion, if_pos h]
    exact ⟨rfl, rfl⟩
  · intro st h hlt
    rw [handleNextQuestion, if_neg (fun hc => hc h), if_pos hlt]
  · intro st h hge
    rw [handleNextQuestion, if_neg (fun hc => hc h), if_neg (by omega)]
    exact ⟨rfl, rfl⟩

/-- C10 witness: the index theorem applied to the initial state, to a
succeeded state at index 0 and to a succeeded state at the last
question. -/
theorem c10_question_index_bounds_witness :
    initState.currentQuestionIndex ≤ MAX_QUESTIONS - 1 ∧
      (handleNextQuestion succState).currentQuestionIndex =
        succState.currentQuestionIndex + 1 ∧
      (handleNextQuestion
          { succState with currentQuestionIndex := 4 }).view = .complete := by
  refine ⟨?_, ?_, ?_⟩
  · exact c10_question_index_bounds.2.1 initState ClientReachable.init
  · exact c10_question_index_bounds.2.2.2.1 succState rfl (by decide)
  · exact (c10_question_index_bounds.2.2.2.2
      { succState with currentQuestionIndex := 4 } rfl (by decide)).1
